import Mathlib

/-!
Verification of the particle-field simulation (`particles.js` and its two
unnamed variants).  Numbers are modelled as exact rationals; `Math.sqrt`,
which has no exact rational counterpart, is abstracted as an explicit
function parameter `sqrtFn : ℚ → ℚ` wherever the source calls it, so every
theorem quantifying over `sqrtFn` holds for any square-root implementation.
Where JavaScript's non-finite values (NaN, ±Infinity) matter — division by a
zero distance in the repulsion force — a dedicated `JSVal` type models them
faithfully.
-/

namespace ParticlesJs

/-- The `config` object (part_000 lines 19–53).  Colors are external to the
numeric core; the parsed base alphas are passed to the drawing functions as
parameters. -/
structure Config where
  particleCount : ℕ
  maxDistance : ℚ
  particleSpeed : ℚ
  particleRadius : ℚ
  lineWidth : ℚ
  mouseRadius : ℚ
  mouseRepelRadius : ℚ
  mouseRepelStrength : ℚ
  waveOnClick : Bool
  waveMaxRadius : ℚ
  waveDurationFrames : ℤ
  waveInitialLineWidth : ℚ
  waveFadeOut : Bool
  enableEasterEgg : Bool
  easterEggAlwaysFirst : Bool
deriving DecidableEq

/-- The concrete configuration values of `src/unnamed/part_000`. -/
def defaultConfig : Config :=
  { particleCount := 120
    maxDistance := 250
    particleSpeed := 3/10
    particleRadius := 4
    lineWidth := 4/5
    mouseRadius := 200
    mouseRepelRadius := 150
    mouseRepelStrength := 1/20
    waveOnClick := true
    waveMaxRadius := 80
    waveDurationFrames := 90
    waveInitialLineWidth := 1
    waveFadeOut := true
    enableEasterEgg := true
    easterEggAlwaysFirst := false }

/-- A particle (part_000 lines 71–143). -/
structure Particle where
  radius : ℚ
  x : ℚ
  y : ℚ
  vx : ℚ
  vy : ℚ
  isEasterEgg : Bool
deriving DecidableEq

/-- The five random draws consumed by the `Particle` constructor. -/
structure RandomDraw where
  radius : ℚ
  x : ℚ
  y : ℚ
  vx : ℚ
  vy : ℚ
deriving DecidableEq

/-- The `Particle` constructor (part_000 lines 72–82): random radius,
position and velocity are passed in as a `RandomDraw`; a sampled zero
velocity component is replaced by `0.1`; `isEasterEgg` starts `false`. -/
def Particle.construct (d : RandomDraw) : Particle :=
  { radius := d.radius
    x := d.x
    y := d.y
    vx := if d.vx = 0 then 1/10 else d.vx
    vy := if d.vy = 0 then 1/10 else d.vy
    isEasterEgg := false }

/-- The repulsion block of `Particle.update` (part_000 lines 102–126): if the
mouse is down and present and the distance from mouse to particle is below
`mouseRepelRadius`, add a force of magnitude
`(1 - distance/mouseRepelRadius) * mouseRepelStrength` along the normalized
mouse-to-particle vector to the velocity, then clamp each component to
`±(3 * particleSpeed)`.  Caveat: `/` here is exact rational division, for
which `0/0 = 0`, so this model is faithful only while the computed distance
is nonzero; at distance exactly `0` the JavaScript source computes `0/0` =
NaN, which is modelled separately by `repelVelocitiesJS` and `updateJS`. -/
def Particle.applyRepulsion (cfg : Config) (sqrtFn : ℚ → ℚ)
    (mouse : Option (ℚ × ℚ)) (isMouseDown : Bool) (p : Particle) : Particle :=
  match isMouseDown, mouse with
  | true, some (mx, my) =>
      let dxMouse := p.x - mx
      let dyMouse := p.y - my
      let distanceMouse := sqrtFn (dxMouse * dxMouse + dyMouse * dyMouse)
      if distanceMouse < cfg.mouseRepelRadius then
        let forceDirectionX := dxMouse / distanceMouse
        let forceDirectionY := dyMouse / distanceMouse
        let forceMagnitude := (1 - distanceMouse / cfg.mouseRepelRadius) * cfg.mouseRepelStrength
        let maxSpeed := cfg.particleSpeed * 3
        { p with
          vx := max (-maxSpeed) (min maxSpeed (p.vx + forceDirectionX * forceMagnitude))
          vy := max (-maxSpeed) (min maxSpeed (p.vy + forceDirectionY * forceMagnitude)) }
      else p
  | _, _ => p

/-- The movement and boundary-reflection block of `Particle.update`
(part_000 lines 127–141): integrate position by velocity; then, per axis, if
the particle's edge crosses the surface bound, negate that axis's velocity
and clamp the position back into `[radius, bound - radius]`. -/
def Particle.moveAndBounce (width height : ℚ) (p : Particle) : Particle :=
  let x1 := p.x + p.vx
  let y1 := p.y + p.vy
  let vx1 := if x1 + p.radius > width ∨ x1 - p.radius < 0 then -p.vx else p.vx
  let x2 := if x1 + p.radius > width ∨ x1 - p.radius < 0 then
      max p.radius (min (width - p.radius) x1) else x1
  let vy1 := if y1 + p.radius > height ∨ y1 - p.radius < 0 then -p.vy else p.vy
  let y2 := if y1 + p.radius > height ∨ y1 - p.radius < 0 then
      max p.radius (min (height - p.radius) y1) else y1
  { p with x := x2, y := y2, vx := vx1, vy := vy1 }

/-- Full `Particle.update` (part_000 lines 101–142): repulsion, then movement and
boundary reflection. -/
def Particle.update (cfg : Config) (sqrtFn : ℚ → ℚ) (mouse : Option (ℚ × ℚ))
    (isMouseDown : Bool) (width height : ℚ) (p : Particle) : Particle :=
  Particle.moveAndBounce width height (Particle.applyRepulsion cfg sqrtFn mouse isMouseDown p)

/-- Run `n` update ticks, tick `i` seeing pointer state `ptr i`
(position option, mouse-down flag). -/
def runTicks (cfg : Config) (sqrtFn : ℚ → ℚ) (width height : ℚ)
    (ptr : ℕ → Option (ℚ × ℚ) × Bool) : ℕ → Particle → Particle
  | 0, p => p
  | n + 1, p =>
      Particle.update cfg sqrtFn (ptr n).1 (ptr n).2 width height
        (runTicks cfg sqrtFn width height ptr n p)

theorem applyRepulsion_radius (cfg : Config) (sqrtFn : ℚ → ℚ)
    (mouse : Option (ℚ × ℚ)) (down : Bool) (p : Particle) :
    (Particle.applyRepulsion cfg sqrtFn mouse down p).radius = p.radius := by
  unfold Particle.applyRepulsion
  rcases down with _ | _ <;> rcases mouse with _ | ⟨mx, my⟩
  · rfl
  · rfl
  · rfl
  · simp only
    split <;> rfl

theorem update_radius (cfg : Config) (sqrtFn : ℚ → ℚ) (mouse : Option (ℚ × ℚ))
    (down : Bool) (width height : ℚ) (p : Particle) :
    (Particle.update cfg sqrtFn mouse down width height p).radius = p.radius := by
  unfold Particle.update Particle.moveAndBounce
  simp [applyRepulsion_radius]

theorem runTicks_radius (cfg : Config) (sqrtFn : ℚ → ℚ) (width height : ℚ)
    (ptr : ℕ → Option (ℚ × ℚ) × Bool) (n : ℕ) (p : Particle) :
    (runTicks cfg sqrtFn width height ptr n p).radius = p.radius := by
  induction n with
  | zero => rfl
  | succ n ih => rw [runTicks, update_radius, ih]

/-- Movement plus boundary reflection always lands the position inside
`[radius, bound - radius]` on each axis, provided the surface is at least
`2 * radius` in that dimension: either the bounce branch clamps it there, or
the branch guard already asserts it. -/
theorem moveAndBounce_mem_bounds (width height : ℚ) (q : Particle)
    (hW : 2 * q.radius ≤ width) (hH : 2 * q.radius ≤ height) :
    q.radius ≤ (Particle.moveAndBounce width height q).x ∧
      (Particle.moveAndBounce width height q).x ≤ width - q.radius ∧
      q.radius ≤ (Particle.moveAndBounce width height q).y ∧
      (Particle.moveAndBounce width height q).y ≤ height - q.radius := by
  simp only [Particle.moveAndBounce]
  refine ⟨?_, ?_, ?_, ?_⟩
  · split
    · exact le_max_left _ _
    · next h =>
      push_neg at h
      linarith [h.2]
  · split
    · exact max_le (by linarith) (min_le_left _ _)
    · next h =>
      push_neg at h
      linarith [h.1]
  · split
    · exact le_max_left _ _
    · next h =>
      push_neg at h
      linarith [h.2]
  · split
    · exact max_le (by linarith) (min_le_left _ _)
    · next h =>
      push_neg at h
      linarith [h.1]

/-- One full update lands the position in bounds, whatever the pointer. -/
theorem update_mem_bounds (cfg : Config) (sqrtFn : ℚ → ℚ)
    (mouse : Option (ℚ × ℚ)) (down : Bool) (width height : ℚ) (p : Particle)
    (hW : 2 * p.radius ≤ width) (hH : 2 * p.radius ≤ height) :
    p.radius ≤ (Particle.update cfg sqrtFn mouse down width height p).x ∧
      (Particle.update cfg sqrtFn mouse down width height p).x ≤ width - p.radius ∧
      p.radius ≤ (Particle.update cfg sqrtFn mouse down width height p).y ∧
      (Particle.update cfg sqrtFn mouse down width height p).y ≤ height - p.radius := by
  have hr : (Particle.applyRepulsion cfg sqrtFn mouse down p).radius = p.radius :=
    applyRepulsion_radius cfg sqrtFn mouse down p
  have h := moveAndBounce_mem_bounds width height
    (Particle.applyRepulsion cfg sqrtFn mouse down p)
    (by rw [hr]; exact hW) (by rw [hr]; exact hH)
  rw [hr] at h
  exact h

/-- Under exact rational semantics — where the zero-distance division
contributes a zero force instead of the NaN the JavaScript code produces
(see `nan_escapes_bounds`) — a particle starting within
`[radius, width - radius] × [radius, height - radius]` stays within those
bounds after any number of update ticks, whatever the pointer does each
tick, provided the surface is at least `2 * radius` wide and tall.  This is
the behavior the spec intends; the real code breaks it exactly at the
zero-distance NaN case. -/
theorem particle_stays_in_bounds (cfg : Config) (sqrtFn : ℚ → ℚ)
    (width height : ℚ) (ptr : ℕ → Option (ℚ × ℚ) × Bool) (p : Particle)
    (hW : 2 * p.radius ≤ width) (hH : 2 * p.radius ≤ height)
    (hx : p.radius ≤ p.x ∧ p.x ≤ width - p.radius)
    (hy : p.radius ≤ p.y ∧ p.y ≤ height - p.radius) (n : ℕ) :
    p.radius ≤ (runTicks cfg sqrtFn width height ptr n p).x ∧
      (runTicks cfg sqrtFn width height ptr n p).x ≤ width - p.radius ∧
      p.radius ≤ (runTicks cfg sqrtFn width height ptr n p).y ∧
      (runTicks cfg sqrtFn width height ptr n p).y ≤ height - p.radius := by
  cases n with
  | zero => exact ⟨hx.1, hx.2, hy.1, hy.2⟩
  | succ n =>
    have hrad := runTicks_radius cfg sqrtFn width height ptr n p
    have := update_mem_bounds cfg sqrtFn (ptr n).1 (ptr n).2 width height
      (runTicks cfg sqrtFn width height ptr n p) (by rw [hrad]; exact hW)
      (by rw [hrad]; exact hH)
    rw [hrad] at this
    exact this

/-- Concrete instance of `particle_stays_in_bounds` at a particle, surface
and tick count. -/
theorem particle_stays_in_bounds_witness :
    (4 : ℚ) ≤ (runTicks defaultConfig (fun q => q) 100 100 (fun _ => (none, false)) 3
        { radius := 4, x := 50, y := 50, vx := 1, vy := 1, isEasterEgg := false }).x := by
  have h := particle_stays_in_bounds defaultConfig (fun q => q) 100 100
    (fun _ => (none, false))
    { radius := 4, x := 50, y := 50, vx := 1, vy := 1, isEasterEgg := false }
    (by norm_num) (by norm_num) (by norm_num) (by norm_num) 3
  exact h.1

/-- A wave ring as pushed by the mousedown listener (part_000 lines 383–391). -/
structure Wave where
  x : ℚ
  y : ℚ
  currentRadius : ℚ
  maxRadius : ℚ
  life : ℤ
  initialLife : ℤ
  initialLineWidth : ℚ
deriving DecidableEq

/-- The wave object pushed on a qualifying click (part_000 lines 383–391):
radius starts at `0`, `life = initialLife`. -/
def mkWave (x y maxRadius : ℚ) (life : ℤ) (initialLineWidth : ℚ) : Wave :=
  { x := x, y := y, currentRadius := 0, maxRadius := maxRadius
    life := life, initialLife := life, initialLineWidth := initialLineWidth }

/-- The mutation at the top of the wave filter callback (part_000
lines 227–228): grow the radius by `maxRadius / initialLife`, decrement
`life`. -/
def waveStep (w : Wave) : Wave :=
  { w with currentRadius := w.currentRadius + w.maxRadius / (w.initialLife : ℚ)
           life := w.life - 1 }

/-- The survival test of the wave filter callback, evaluated after
`waveStep` (part_000 lines 231–253): keep the wave iff `life > 0`, the
radius is below `maxRadius * 1.1`, and the computed line width and opacity
are positive.  `baseAlpha` is the alpha parsed from the theme's wave
color. -/
def waveAlive (fadeOut : Bool) (baseAlpha : ℚ) (w : Wave) : Bool :=
  if w.life > 0 ∧ w.currentRadius < w.maxRadius * (11/10) then
    let progress : ℚ := 1 - (w.life : ℚ) / (w.initialLife : ℚ)
    let opacity : ℚ := if fadeOut then (1 - progress) * baseAlpha else baseAlpha
    let lineWidth : ℚ := w.initialLineWidth * (1 - progress)
    if lineWidth ≤ 0 ∨ opacity ≤ 0 then false else true
  else false

/-- One tick of the wave pass in `animate` (part_000 lines 219–255): when
`waveOnClick` is set, each wave is mutated by `waveStep` and kept iff
`waveAlive`; otherwise the pass is skipped entirely. -/
def advanceWaves (waveOnClick fadeOut : Bool) (baseAlpha : ℚ)
    (ws : List Wave) : List Wave :=
  if waveOnClick then (ws.map waveStep).filter (waveAlive fadeOut baseAlpha) else ws

theorem waveStep_iterate_fixed (w : Wave) (k : ℕ) :
    (waveStep^[k] w).maxRadius = w.maxRadius ∧
      (waveStep^[k] w).initialLife = w.initialLife ∧
      (waveStep^[k] w).initialLineWidth = w.initialLineWidth ∧
      (waveStep^[k] w).life = w.life - k := by
  induction k with
  | zero => simp
  | succ k ih =>
    rw [Function.iterate_succ_apply']
    refine ⟨ih.1, ih.2.1, ih.2.2.1, ?_⟩
    simp only [waveStep, ih.2.2.2]
    push_cast
    ring

theorem waveStep_iterate_radius (w : Wave) (k : ℕ) :
    (waveStep^[k] w).currentRadius
      = w.currentRadius + k * (w.maxRadius / (w.initialLife : ℚ)) := by
  induction k with
  | zero => simp
  | succ k ih =>
    rw [Function.iterate_succ_apply']
    simp only [waveStep, ih, (waveStep_iterate_fixed w k).1,
      (waveStep_iterate_fixed w k).2.1]
    push_cast
    ring

/-- C5: every tick adds exactly `maxRadius / initialLife` to a wave's
`currentRadius`, so the radius strictly increases tick by tick, and after the
full `initialLife` ticks the total growth from `0` is exactly `maxRadius`. -/
theorem wave_radius_growth (x y maxRadius initialLineWidth : ℚ) (life : ℤ)
    (hM : 0 < maxRadius) (hL : 0 < life) (k : ℕ) :
    (waveStep^[k + 1] (mkWave x y maxRadius life initialLineWidth)).currentRadius
        = (waveStep^[k] (mkWave x y maxRadius life initialLineWidth)).currentRadius
          + maxRadius / (life : ℚ) ∧
      (waveStep^[k] (mkWave x y maxRadius life initialLineWidth)).currentRadius
        < (waveStep^[k + 1] (mkWave x y maxRadius life initialLineWidth)).currentRadius ∧
      (waveStep^[life.toNat] (mkWave x y maxRadius life initialLineWidth)).currentRadius
        = maxRadius := by
  have hLQ : (0 : ℚ) < (life : ℚ) := by exact_mod_cast hL
  have hstep : (0 : ℚ) < maxRadius / (life : ℚ) := div_pos hM hLQ
  have hrad : ∀ j : ℕ,
      (waveStep^[j] (mkWave x y maxRadius life initialLineWidth)).currentRadius
        = j * (maxRadius / (life : ℚ)) := by
    intro j
    rw [waveStep_iterate_radius]
    simp [mkWave]
  refine ⟨?_, ?_, ?_⟩
  · rw [hrad (k + 1), hrad k]
    push_cast
    ring
  · rw [hrad (k + 1), hrad k]
    push_cast
    nlinarith
  · rw [hrad life.toNat]
    rw [show ((life.toNat : ℚ)) = (life : ℚ) by
      exact_mod_cast Int.toNat_of_nonneg hL.le]
    field_simp

/-- Witness for C5 at `maxRadius = 3`, `life = 2`, tick `0`. -/
theorem wave_radius_growth_witness :
    (waveStep^[Int.toNat 2] (mkWave 0 0 3 2 1)).currentRadius = 3 :=
  (wave_radius_growth 0 0 3 1 2 (by norm_num) (by norm_num) 0).2.2

theorem waveAlive_eq_true_iff (fade : Bool) (baseAlpha : ℚ) (w : Wave) :
    waveAlive fade baseAlpha w = true ↔
      (0 < w.life ∧ w.currentRadius < w.maxRadius * (11/10)) ∧
        ¬(w.initialLineWidth * (1 - (1 - (w.life : ℚ) / (w.initialLife : ℚ))) ≤ 0 ∨
          (if fade then (1 - (1 - (w.life : ℚ) / (w.initialLife : ℚ))) * baseAlpha
            else baseAlpha) ≤ 0) := by
  unfold waveAlive
  by_cases h1 : w.life > 0 ∧ w.currentRadius < w.maxRadius * (11/10)
  · rw [if_pos h1]
    simp only
    by_cases h2 : w.initialLineWidth * (1 - (1 - (w.life : ℚ) / (w.initialLife : ℚ))) ≤ 0 ∨
        (if fade then (1 - (1 - (w.life : ℚ) / (w.initialLife : ℚ))) * baseAlpha
          else baseAlpha) ≤ 0
    · rw [if_pos h2]
      simp only [Bool.false_eq_true, false_iff, not_and]
      intro _
      exact not_not_intro h2
    · rw [if_neg h2]
      exact iff_of_true rfl ⟨h1, h2⟩
  · rw [if_neg h1]
    simp only [Bool.false_eq_true, false_iff, not_and]
    intro h
    exact absurd h h1

theorem waveAlive_pos_life (fade : Bool) (baseAlpha : ℚ) (w : Wave)
    (h : waveAlive fade baseAlpha w = true) : 0 < w.life :=
  (((waveAlive_eq_true_iff fade baseAlpha w).mp h).1).1

theorem waveAlive_iff (fade : Bool) (baseAlpha : ℚ) (w : Wave) :
    waveAlive fade baseAlpha w = true ↔
      ¬(w.life ≤ 0 ∨ w.maxRadius * (11/10) ≤ w.currentRadius ∨
        w.initialLineWidth * (1 - (1 - (w.life : ℚ) / (w.initialLife : ℚ))) ≤ 0 ∨
        (if fade then (1 - (1 - (w.life : ℚ) / (w.initialLife : ℚ))) * baseAlpha
          else baseAlpha) ≤ 0) := by
  rw [waveAlive_eq_true_iff]
  push_neg
  tauto

theorem mem_advanceWaves (fade : Bool) (baseAlpha : ℚ) (ws : List Wave) (w : Wave) :
    w ∈ advanceWaves true fade baseAlpha ws ↔
      ∃ v ∈ ws, waveStep v = w ∧ waveAlive fade baseAlpha w = true := by
  simp only [advanceWaves, if_true, List.mem_filter, List.mem_map]
  tauto

theorem advanceWaves_singleton_cases (fade : Bool) (baseAlpha : ℚ) (w : Wave) (k : ℕ) :
    (advanceWaves true fade baseAlpha)^[k] [w] = [] ∨
      (advanceWaves true fade baseAlpha)^[k] [w] = [waveStep^[k] w] := by
  induction k with
  | zero => right; rfl
  | succ k ih =>
    rw [Function.iterate_succ_apply']
    rcases ih with h | h
    · left
      rw [h]
      rfl
    · rw [h]
      by_cases ha : waveAlive fade baseAlpha (waveStep (waveStep^[k] w)) = true
      · right
        rw [Function.iterate_succ_apply']
        simp [advanceWaves, List.filter_cons, ha]
      · left
        simp [advanceWaves, List.filter_cons, ha]

/-- C6: a wave created with lifetime `L ≥ 1` is gone from the collection
within `L` wave-pass ticks, for every fade flag, max radius, base alpha and
starting line width; and after each tick the collection holds exactly the
stepped waves on which none of the four removal conditions (`life ≤ 0`,
`currentRadius ≥ maxRadius * 1.1`, computed line width `≤ 0`, computed
opacity `≤ 0`) fired. -/
theorem wave_removed_within_initialLife (baseAlpha maxRadius initialLineWidth x y : ℚ)
    (fade : Bool) (L : ℤ) (hL : 1 ≤ L) :
    (advanceWaves true fade baseAlpha)^[L.toNat]
        [mkWave x y maxRadius L initialLineWidth] = [] ∧
      ∀ (ws : List Wave) (w : Wave),
        w ∈ advanceWaves true fade baseAlpha ws ↔
          ∃ v ∈ ws, waveStep v = w ∧
            ¬(w.life ≤ 0 ∨ w.maxRadius * (11/10) ≤ w.currentRadius ∨
              w.initialLineWidth * (1 - (1 - (w.life : ℚ) / (w.initialLife : ℚ))) ≤ 0 ∨
              (if fade then (1 - (1 - (w.life : ℚ) / (w.initialLife : ℚ))) * baseAlpha
                else baseAlpha) ≤ 0) := by
  constructor
  · rcases advanceWaves_singleton_cases fade baseAlpha
      (mkWave x y maxRadius L initialLineWidth) L.toNat with h | h
    · exact h
    · exfalso
      obtain ⟨k, hk⟩ : ∃ k, L.toNat = k + 1 := ⟨L.toNat - 1, by omega⟩
      have hmem : waveStep^[k + 1] (mkWave x y maxRadius L initialLineWidth)
          ∈ advanceWaves true fade baseAlpha
              ((advanceWaves true fade baseAlpha)^[k]
                [mkWave x y maxRadius L initialLineWidth]) := by
        rw [← Function.iterate_succ_apply' (advanceWaves true fade baseAlpha) k
          [mkWave x y maxRadius L initialLineWidth], Nat.succ_eq_add_one, ← hk, h]
        exact List.mem_singleton_self _
      obtain ⟨v, _, _, halive⟩ := (mem_advanceWaves fade baseAlpha _ _).mp hmem
      have hpos := waveAlive_pos_life fade baseAlpha _ halive
      have hlife := (waveStep_iterate_fixed (mkWave x y maxRadius L initialLineWidth)
        (k + 1)).2.2.2
      have hw0 : (mkWave x y maxRadius L initialLineWidth).life = L := rfl
      rw [hw0] at hlife
      omega
  · intro ws w
    rw [mem_advanceWaves fade baseAlpha ws w]
    constructor
    · rintro ⟨v, hv, hvw, halive⟩
      exact ⟨v, hv, hvw, (waveAlive_iff fade baseAlpha w).mp halive⟩
    · rintro ⟨v, hv, hvw, hcond⟩
      exact ⟨v, hv, hvw, (waveAlive_iff fade baseAlpha w).mpr hcond⟩

/-- Witness for C6 at lifetime `1`. -/
theorem wave_removed_within_initialLife_witness :
    (advanceWaves true true (3/20))^[Int.toNat 1] [mkWave 0 0 80 1 1] = [] :=
  (wave_removed_within_initialLife (3/20) 80 1 0 0 true 1 (by norm_num)).1

/-- The in-place mutation `particles[eggIndex].isEasterEgg = true`
(part_000 line 163) on a list, for an in-range index. -/
def markEgg : List Particle → ℕ → List Particle
  | [], _ => []
  | p :: rest, 0 => { p with isEasterEgg := true } :: rest
  | p :: rest, n + 1 => p :: markEgg rest n

/-- Function `init` (part_000 lines 146–167), with the random draws of the
constructor loop passed as `draws` and the raw value of
`Math.floor(Math.random() * particles.length)` passed as `randIndex`:
build `particleCount` fresh particles; if the egg feature is on and the
list is non-empty, mark index `0` (fixed policy) or the random index,
clamped into range, as the easter egg. -/
def init (cfg : Config) (draws : ℕ → RandomDraw) (randIndex : ℕ) : List Particle :=
  let particles := (List.range cfg.particleCount).map (fun i => Particle.construct (draws i))
  if cfg.enableEasterEgg ∧ particles.length > 0 then
    let eggIndex0 : ℕ := if cfg.easterEggAlwaysFirst then 0 else randIndex
    let eggIndex := max 0 (min (particles.length - 1) eggIndex0)
    markEgg particles eggIndex
  else particles

theorem countP_markEgg (l : List Particle) (i : ℕ) (hi : i < l.length)
    (h0 : l.countP (fun p => p.isEasterEgg) = 0) :
    (markEgg l i).countP (fun p => p.isEasterEgg) = 1 := by
  induction l generalizing i with
  | nil => simp at hi
  | cons p rest ih =>
    cases i with
    | zero =>
      simp only [markEgg]
      simp at h0 ⊢
      tauto
    | succ n =>
      simp only [markEgg]
      simp only [List.countP_cons] at h0 ⊢
      have hrest : rest.countP (fun p => p.isEasterEgg) = 0 := by omega
      have := ih n (by simpa using hi) hrest
      omega

theorem countP_construct_zero (cfg : Config) (draws : ℕ → RandomDraw) :
    ((List.range cfg.particleCount).map
        (fun i => Particle.construct (draws i))).countP (fun p => p.isEasterEgg) = 0 := by
  rw [List.countP_eq_zero]
  intro p hp
  rw [List.mem_map] at hp
  obtain ⟨i, _, rfl⟩ := hp
  simp [Particle.construct]

/-- C3: after `init`, exactly one particle is the easter egg when the egg
feature is enabled and the particle count is at least one; none is when the
feature is disabled or the count is zero. -/
theorem init_one_easter_egg (cfg : Config) (draws : ℕ → RandomDraw) (randIndex : ℕ) :
    (cfg.enableEasterEgg = true → 1 ≤ cfg.particleCount →
        (init cfg draws randIndex).countP (fun p => p.isEasterEgg) = 1) ∧
      (cfg.enableEasterEgg = false ∨ cfg.particleCount = 0 →
        (init cfg draws randIndex).countP (fun p => p.isEasterEgg) = 0) := by
  have hlen : ((List.range cfg.particleCount).map
      (fun i => Particle.construct (draws i))).length = cfg.particleCount := by
    simp
  constructor
  · intro hegg hcount
    unfold init
    rw [if_pos (by rw [hlen]; exact ⟨hegg, by omega⟩)]
    refine countP_markEgg _ _ ?_ (countP_construct_zero cfg draws)
    rw [hlen]
    omega
  · intro hcase
    unfold init
    rw [if_neg ?_]
    · exact countP_construct_zero cfg draws
    · rw [hlen]
      rcases hcase with h | h
      · rintro ⟨h1, _⟩
        rw [h] at h1
        exact Bool.false_ne_true h1
      · rintro ⟨_, h2⟩
        omega

/-- Witness for C3: with the default config (egg enabled, 120 particles)
both clauses apply on concrete random draws. -/
theorem init_one_easter_egg_witness :
    (init defaultConfig (fun _ => ⟨4, 50, 50, 1/10, 1/10⟩) 7).countP
      (fun p => p.isEasterEgg) = 1 :=
  (init_one_easter_egg defaultConfig (fun _ => ⟨4, 50, 50, 1/10, 1/10⟩) 7).1
    rfl (by norm_num [defaultConfig])

/-- State of the easter-egg popup collaborator: whether it is visible and
the pending auto-hide delay (`popupTimeoutId`), `none` when no hide timer is
pending. -/
structure PopupState where
  visible : Bool
  pendingHideMs : Option ℕ
deriving DecidableEq

/-- Handler `showEasterEggPopup` (part_000 lines 305–319): any pending hide timer is
cleared, the popup becomes visible, and a fresh 5000 ms auto-hide timer is
scheduled — independent of the previous state. -/
def showEasterEggPopup (_ : PopupState) : PopupState :=
  { visible := true, pendingHideMs := some 5000 }

/-- The hit-scan loop of the mousedown listener (part_000 lines 360–379):
walk the particles in order; when the click lands within `radius + 20` of a
particle that is the easter egg, fire the popup once and stop; a hit on a
non-egg particle just keeps scanning.  Returns (number of
`showEasterEggPopup` calls, `clickedOnEgg`). -/
def mousedownScan (sqrtFn : ℚ → ℚ) (mx my : ℚ) : List Particle → ℕ × Bool
  | [] => (0, false)
  | p :: rest =>
      let dxClick := mx - p.x
      let dyClick := my - p.y
      let distanceClick := sqrtFn (dxClick * dxClick + dyClick * dyClick)
      if distanceClick < p.radius + 20 then
        if p.isEasterEgg then (1, true)
        else mousedownScan sqrtFn mx my rest
      else mousedownScan sqrtFn mx my rest

/-- Result of one mousedown event. -/
structure MousedownOutcome where
  eggSignals : ℕ
  clickedOnEgg : Bool
  newWaves : List Wave
  found : Bool
  popup : PopupState
deriving DecidableEq

/-- The mousedown listener (part_000 lines 354–393): scan for the egg when
the feature is on and the pointer position is present; fire the popup and
set `easterEggParticleFound` on an egg hit; push exactly one wave at the
pointer position when waves are enabled and the egg was not hit. -/
def mousedown (cfg : Config) (sqrtFn : ℚ → ℚ) (mouse : Option (ℚ × ℚ))
    (particles : List Particle) (activeWaves : List Wave)
    (foundBefore : Bool) (popupBefore : PopupState) : MousedownOutcome :=
  let scanned : ℕ × Bool :=
    match mouse with
    | some (mx, my) =>
        if cfg.enableEasterEgg then mousedownScan sqrtFn mx my particles else (0, false)
    | none => (0, false)
  let clickedOnEgg := scanned.2
  let found := if clickedOnEgg then true else foundBefore
  let popup := if 0 < scanned.1 then showEasterEggPopup popupBefore else popupBefore
  let waves :=
    match mouse with
    | some (mx, my) =>
        if cfg.waveOnClick ∧ ¬clickedOnEgg = true then
          activeWaves ++ [{ x := mx, y := my, currentRadius := 0
                            maxRadius := cfg.mouseRepelRadius
                            life := cfg.waveDurationFrames
                            initialLife := cfg.waveDurationFrames
                            initialLineWidth := cfg.waveInitialLineWidth }]
        else activeWaves
    | none => activeWaves
  { eggSignals := scanned.1, clickedOnEgg := clickedOnEgg, newWaves := waves
    found := found, popup := popup }

theorem mousedownScan_hit (sqrtFn : ℚ → ℚ) (mx my : ℚ) (l : List Particle)
    (h : ∃ p ∈ l, p.isEasterEgg = true ∧
      sqrtFn ((mx - p.x) * (mx - p.x) + (my - p.y) * (my - p.y)) < p.radius + 20) :
    mousedownScan sqrtFn mx my l = (1, true) := by
  induction l with
  | nil => simp at h
  | cons p rest ih =>
    obtain ⟨q, hq, hegg, hdist⟩ := h
    rw [List.mem_cons] at hq
    simp only [mousedownScan]
    rcases hq with rfl | hq
    · rw [if_pos hdist, if_pos hegg]
    · by_cases hin : sqrtFn ((mx - p.x) * (mx - p.x) + (my - p.y) * (my - p.y)) < p.radius + 20
      · rw [if_pos hin]
        by_cases hpe : p.isEasterEgg = true
        · rw [if_pos hpe]
        · rw [if_neg hpe]
          exact ih ⟨q, hq, hegg, hdist⟩
      · rw [if_neg hin]
        exact ih ⟨q, hq, hegg, hdist⟩

theorem mousedownScan_miss (sqrtFn : ℚ → ℚ) (mx my : ℚ) (l : List Particle)
    (h : ∀ p ∈ l, p.isEasterEgg = true →
      ¬ sqrtFn ((mx - p.x) * (mx - p.x) + (my - p.y) * (my - p.y)) < p.radius + 20) :
    (mousedownScan sqrtFn mx my l).2 = false := by
  induction l with
  | nil => rfl
  | cons p rest ih =>
    simp only [mousedownScan]
    by_cases hin : sqrtFn ((mx - p.x) * (mx - p.x) + (my - p.y) * (my - p.y)) < p.radius + 20
    · rw [if_pos hin]
      by_cases hpe : p.isEasterEgg = true
      · exact absurd hin (h p (List.mem_cons_self p rest) hpe)
      · rw [if_neg hpe]
        exact ih (fun q hq => h q (List.mem_cons_of_mem p hq))
    · rw [if_neg hin]
      exact ih (fun q hq => h q (List.mem_cons_of_mem p hq))

/-- C4: when the egg feature is on and the click lands within
`radius + 20` of the easter-egg particle, the mousedown listener emits
exactly one egg-found signal and spawns no wave, regardless of the other
particles. -/
theorem egg_hit_one_signal_no_wave (cfg : Config) (sqrtFn : ℚ → ℚ) (mx my : ℚ)
    (particles : List Particle) (activeWaves : List Wave)
    (foundBefore : Bool) (popupBefore : PopupState)
    (hegg : cfg.enableEasterEgg = true)
    (hp : ∃ p ∈ particles, p.isEasterEgg = true ∧
      sqrtFn ((mx - p.x) * (mx - p.x) + (my - p.y) * (my - p.y)) < p.radius + 20) :
    (mousedown cfg sqrtFn (some (mx, my)) particles activeWaves
        foundBefore popupBefore).eggSignals = 1 ∧
      (mousedown cfg sqrtFn (some (mx, my)) particles activeWaves
        foundBefore popupBefore).newWaves = activeWaves := by
  have hscan := mousedownScan_hit sqrtFn mx my particles hp
  simp [mousedown, hegg, hscan]

/-- Witness for C4: a click exactly on a lone egg particle. -/
theorem egg_hit_one_signal_no_wave_witness :
    (mousedown defaultConfig (fun q => q) (some (100, 100))
        [{ radius := 4, x := 100, y := 100, vx := 0, vy := 0, isEasterEgg := true }]
        [] false { visible := false, pendingHideMs := none }).eggSignals = 1 :=
  (egg_hit_one_signal_no_wave defaultConfig (fun q => q) 100 100
    [{ radius := 4, x := 100, y := 100, vx := 0, vy := 0, isEasterEgg := true }]
    [] false { visible := false, pendingHideMs := none } rfl
    ⟨_, List.mem_singleton_self _, rfl, by norm_num⟩).1

/-- C7: when the click does not land on the easter-egg particle and waves
are enabled, exactly one wave is appended, originating at the pointer
position with `currentRadius = 0`, `maxRadius` equal to the repulsion
radius, lifetime equal to the configured wave duration, and the configured
starting line width. -/
theorem miss_spawns_one_wave (cfg : Config) (sqrtFn : ℚ → ℚ) (mx my : ℚ)
    (particles : List Particle) (activeWaves : List Wave)
    (foundBefore : Bool) (popupBefore : PopupState)
    (hwave : cfg.waveOnClick = true)
    (hmiss : ∀ p ∈ particles, p.isEasterEgg = true →
      ¬ sqrtFn ((mx - p.x) * (mx - p.x) + (my - p.y) * (my - p.y)) < p.radius + 20) :
    (mousedown cfg sqrtFn (some (mx, my)) particles activeWaves
        foundBefore popupBefore).newWaves
      = activeWaves ++ [{ x := mx, y := my, currentRadius := 0
                          maxRadius := cfg.mouseRepelRadius
                          life := cfg.waveDurationFrames
                          initialLife := cfg.waveDurationFrames
                          initialLineWidth := cfg.waveInitialLineWidth }] := by
  have hscan := mousedownScan_miss sqrtFn mx my particles hmiss
  by_cases hegg : cfg.enableEasterEgg = true
  · simp [mousedown, hegg, hscan, hwave]
  · rw [Bool.not_eq_true] at hegg
    simp [mousedown, hegg, hwave]

/-- Witness for C7: a click far from a lone egg particle. -/
theorem miss_spawns_one_wave_witness :
    (mousedown defaultConfig (fun q => q) (some (500, 500))
        [{ radius := 4, x := 100, y := 100, vx := 0, vy := 0, isEasterEgg := true }]
        [] false { visible := false, pendingHideMs := none }).newWaves
      = [{ x := 500, y := 500, currentRadius := 0, maxRadius := 150
           life := 90, initialLife := 90, initialLineWidth := 1 }] :=
  miss_spawns_one_wave defaultConfig (fun q => q) 500 500
    [{ radius := 4, x := 100, y := 100, vx := 0, vy := 0, isEasterEgg := true }]
    [] false { visible := false, pendingHideMs := none } rfl
    (by
      intro p hp _
      rw [List.mem_singleton] at hp
      subst hp
      norm_num)

/-- C10: the egg-found signal is not latched: whatever the prior value of
`easterEggParticleFound`, a click on the egg fires the popup again (one
signal, popup visible, auto-hide timer reset to 5000 ms) and sets the found
flag. -/
theorem egg_signal_not_latched (cfg : Config) (sqrtFn : ℚ → ℚ) (mx my : ℚ)
    (particles : List Particle) (activeWaves : List Wave)
    (foundBefore : Bool) (popupBefore : PopupState)
    (hegg : cfg.enableEasterEgg = true)
    (hp : ∃ p ∈ particles, p.isEasterEgg = true ∧
      sqrtFn ((mx - p.x) * (mx - p.x) + (my - p.y) * (my - p.y)) < p.radius + 20) :
    (mousedown cfg sqrtFn (some (mx, my)) particles activeWaves
        foundBefore popupBefore).eggSignals = 1 ∧
      (mousedown cfg sqrtFn (some (mx, my)) particles activeWaves
        foundBefore popupBefore).popup
        = { visible := true, pendingHideMs := some 5000 } ∧
      (mousedown cfg sqrtFn (some (mx, my)) particles activeWaves
        foundBefore popupBefore).found = true := by
  have hscan := mousedownScan_hit sqrtFn mx my particles hp
  simp [mousedown, hegg, hscan, showEasterEggPopup]

/-- Witness for C10: the egg was already found (`foundBefore = true`) and a
second click still fires the popup. -/
theorem egg_signal_not_latched_witness :
    (mousedown defaultConfig (fun q => q) (some (100, 100))
        [{ radius := 4, x := 100, y := 100, vx := 0, vy := 0, isEasterEgg := true }]
        [] true { visible := false, pendingHideMs := none }).popup
      = { visible := true, pendingHideMs := some 5000 } :=
  (egg_signal_not_latched defaultConfig (fun q => q) 100 100
    [{ radius := 4, x := 100, y := 100, vx := 0, vy := 0, isEasterEgg := true }]
    [] true { visible := false, pendingHideMs := none } rfl
    ⟨_, List.mem_singleton_self _, rfl, by norm_num⟩).2.1

/-- A stroked line emitted by `connectParticles`, with the dynamic alpha
applied to the palette's line color. -/
structure DrawnLine where
  x1 : ℚ
  y1 : ℚ
  x2 : ℚ
  y2 : ℚ
  alpha : ℚ
deriving DecidableEq

/-- The particle-to-mouse pass of `connectParticles` (part_000
lines 196–211): when the mouse position is present and a particle is within
`mouseRadius` of it, a line to the mouse is stroked with alpha
`max 0 ((1 - distance/mouseRadius) * 0.5)`; an absent mouse draws
nothing. -/
def mouseLines (cfg : Config) (sqrtFn : ℚ → ℚ) (mouse : Option (ℚ × ℚ))
    (particles : List Particle) : List DrawnLine :=
  match mouse with
  | none => []
  | some (mx, my) =>
      particles.filterMap (fun p =>
        let dxMouse := p.x - mx
        let dyMouse := p.y - my
        let distanceMouse := sqrtFn (dxMouse * dxMouse + dyMouse * dyMouse)
        if distanceMouse < cfg.mouseRadius then
          some { x1 := p.x, y1 := p.y, x2 := mx, y2 := my
                 alpha := max 0 ((1 - distanceMouse / cfg.mouseRadius) * (1/2)) }
        else none)

/-- The line drawn between one particle pair (part_000 lines 178–191):
strictly within `maxDistance`, the stroke alpha is
`max 0 ((1 - distance/maxDistance) * lineBaseAlpha)` where `lineBaseAlpha`
is parsed from the palette's line color; at or beyond `maxDistance`,
nothing is drawn. -/
def pairLine (cfg : Config) (sqrtFn : ℚ → ℚ) (lineBaseAlpha : ℚ)
    (a b : Particle) : Option DrawnLine :=
  let dx := a.x - b.x
  let dy := a.y - b.y
  let distance := sqrtFn (dx * dx + dy * dy)
  if distance < cfg.maxDistance then
    some { x1 := a.x, y1 := a.y, x2 := b.x, y2 := b.y
           alpha := max 0 ((1 - distance / cfg.maxDistance) * lineBaseAlpha) }
  else none

/-- The `i < j` double loop of `connectParticles` (part_000
lines 175–193). -/
def connectLines (cfg : Config) (sqrtFn : ℚ → ℚ) (lineBaseAlpha : ℚ) :
    List Particle → List DrawnLine
  | [] => []
  | p :: rest =>
      rest.filterMap (pairLine cfg sqrtFn lineBaseAlpha p)
        ++ connectLines cfg sqrtFn lineBaseAlpha rest

/-- Tracked pointer state. -/
structure MouseState where
  mouse : Option (ℚ × ℚ)
  isMouseDown : Bool
deriving DecidableEq

/-- The mouseout listener (part_000 lines 347–351): the position becomes
absent and the pressed flag is cleared. -/
def mouseoutHandler (_ : MouseState) : MouseState :=
  { mouse := none, isMouseDown := false }

/-- Fuel-bounded Newton iteration for the integer square root. -/
def sqrtIter : ℕ → ℕ → ℕ → ℕ
  | 0, _, guess => guess
  | fuel + 1, n, guess =>
      let next := (guess + n / guess) / 2
      if next < guess then sqrtIter fuel n next else guess

/-- Integer square root (floor), by structural recursion on a fuel bound. -/
def natSqrt (n : ℕ) : ℕ := if n ≤ 1 then n else sqrtIter n n (n / 2)

/-- Exact rational square root on perfect squares; used only to instantiate
the abstract `sqrtFn` in concrete witnesses. -/
def ratSqrt (q : ℚ) : ℚ := (natSqrt q.num.toNat : ℚ) / (natSqrt q.den : ℚ)

/-- C8: an absent pointer position applies no repulsion (the update is
movement plus boundary reflection only) and draws no particle-to-pointer
line; the mouseout listener clears both the position and the pressed flag,
so repulsion ceases from the next tick; and absence is not the same as a
pointer at the origin `(0, 0)`, which can draw lines. -/
theorem absent_pointer_no_interaction :
    (∀ (cfg : Config) (sqrtFn : ℚ → ℚ) (down : Bool) (width height : ℚ)
        (p : Particle),
        Particle.update cfg sqrtFn none down width height p
          = Particle.moveAndBounce width height p) ∧
      (∀ (cfg : Config) (sqrtFn : ℚ → ℚ) (ps : List Particle),
        mouseLines cfg sqrtFn none ps = []) ∧
      (∀ (s : MouseState) (cfg : Config) (sqrtFn : ℚ → ℚ) (width height : ℚ)
          (p : Particle),
        (mouseoutHandler s).isMouseDown = false ∧
          Particle.update cfg sqrtFn (mouseoutHandler s).mouse
              (mouseoutHandler s).isMouseDown width height p
            = Particle.moveAndBounce width height p) ∧
      (∃ (cfg : Config) (sqrtFn : ℚ → ℚ) (ps : List Particle),
        mouseLines cfg sqrtFn (some (0, 0)) ps ≠ mouseLines cfg sqrtFn none ps) := by
  refine ⟨?_, ?_, ?_, ?_⟩
  · intro cfg sqrtFn down width height p
    unfold Particle.update Particle.applyRepulsion
    cases down <;> rfl
  · intro cfg sqrtFn ps
    rfl
  · intro s cfg sqrtFn width height p
    refine ⟨rfl, ?_⟩
    unfold Particle.update Particle.applyRepulsion mouseoutHandler
    rfl
  · refine ⟨defaultConfig, ratSqrt,
      [{ radius := 4, x := 30, y := 40, vx := 0, vy := 0, isEasterEgg := false }], ?_⟩
    have hd : ratSqrt 2500 = 50 := by
      have h0 : Int.toNat 2500 = 2500 := rfl
      have h1 : natSqrt 2500 = 50 := by decide
      have h2 : natSqrt 1 = 1 := by decide
      norm_num [ratSqrt, h0, h1, h2]
    norm_num [mouseLines, hd, defaultConfig]
    simp

/-- C9: for two particles exactly `maxDistance` apart the computed opacity
`(1 - distance/maxDistance) * lineBaseAlpha` is exactly `0` and the strict
`<` guard draws no line; strictly closer, exactly one line is drawn with
that opacity clamped at a non-negative floor. -/
theorem line_opacity_boundary (cfg : Config) (sqrtFn : ℚ → ℚ)
    (lineBaseAlpha : ℚ) (a b : Particle) (hpos : 0 < cfg.maxDistance) :
    (sqrtFn ((a.x - b.x) * (a.x - b.x) + (a.y - b.y) * (a.y - b.y))
          = cfg.maxDistance →
        (1 - sqrtFn ((a.x - b.x) * (a.x - b.x) + (a.y - b.y) * (a.y - b.y))
            / cfg.maxDistance) * lineBaseAlpha = 0 ∧
          connectLines cfg sqrtFn lineBaseAlpha [a, b] = []) ∧
      (sqrtFn ((a.x - b.x) * (a.x - b.x) + (a.y - b.y) * (a.y - b.y))
          < cfg.maxDistance →
        connectLines cfg sqrtFn lineBaseAlpha [a, b]
          = [{ x1 := a.x, y1 := a.y, x2 := b.x, y2 := b.y
               alpha := max 0 ((1
                 - sqrtFn ((a.x - b.x) * (a.x - b.x) + (a.y - b.y) * (a.y - b.y))
                   / cfg.maxDistance) * lineBaseAlpha) }]) := by
  constructor
  · intro heq
    constructor
    · rw [heq]
      rw [div_self (ne_of_gt hpos)]
      ring
    · simp [connectLines, pairLine, heq]
  · intro hlt
    simp [connectLines, pairLine, hlt]

/-- Witness for C9: two particles exactly `250` apart under the default
configuration produce no line and a zero computed opacity. -/
theorem line_opacity_boundary_witness :
    connectLines defaultConfig ratSqrt (1/5)
      [{ radius := 4, x := 0, y := 0, vx := 0, vy := 0, isEasterEgg := false },
       { radius := 4, x := 250, y := 0, vx := 0, vy := 0, isEasterEgg := false }] = [] :=
  ((line_opacity_boundary defaultConfig ratSqrt (1/5)
    { radius := 4, x := 0, y := 0, vx := 0, vy := 0, isEasterEgg := false }
    { radius := 4, x := 250, y := 0, vx := 0, vy := 0, isEasterEgg := false }
    (by norm_num [defaultConfig])).1
    (by
      have h0 : Int.toNat 62500 = 62500 := rfl
      have h1 : natSqrt 62500 = 250 := by decide
      have h2 : natSqrt 1 = 1 := by decide
      norm_num [ratSqrt, h0, h1, h2, defaultConfig])).2

/-- A JavaScript number that may be non-finite: division by zero yields NaN
(for `0/0`) or ±Infinity, and NaN propagates through arithmetic, `Math.min`
and `Math.max`. -/
inductive JSVal where
  | nan : JSVal
  | posInf : JSVal
  | negInf : JSVal
  | fin : ℚ → JSVal
deriving DecidableEq

/-- JS division of finite operands: `0/0` is NaN, `a/0` is ±Infinity by the
sign of `a`, otherwise exact. -/
def jsDiv (a b : ℚ) : JSVal :=
  if b = 0 then
    if a = 0 then JSVal.nan
    else if 0 < a then JSVal.posInf
    else JSVal.negInf
  else JSVal.fin (a / b)

/-- JS multiplication of a possibly non-finite value by a finite one. -/
def jsMul : JSVal → ℚ → JSVal
  | JSVal.nan, _ => JSVal.nan
  | JSVal.posInf, b =>
      if b = 0 then JSVal.nan else if 0 < b then JSVal.posInf else JSVal.negInf
  | JSVal.negInf, b =>
      if b = 0 then JSVal.nan else if 0 < b then JSVal.negInf else JSVal.posInf
  | JSVal.fin a, b => JSVal.fin (a * b)

/-- JS addition of a finite value and a possibly non-finite one. -/
def jsAdd (a : ℚ) : JSVal → JSVal
  | JSVal.nan => JSVal.nan
  | JSVal.posInf => JSVal.posInf
  | JSVal.negInf => JSVal.negInf
  | JSVal.fin b => JSVal.fin (a + b)

/-- Model of `Math.min` with a finite first argument: NaN-propagating. -/
def jsMin (a : ℚ) : JSVal → JSVal
  | JSVal.nan => JSVal.nan
  | JSVal.posInf => JSVal.fin a
  | JSVal.negInf => JSVal.negInf
  | JSVal.fin b => JSVal.fin (min a b)

/-- Model of `Math.max` with a finite first argument: NaN-propagating. -/
def jsMax (a : ℚ) : JSVal → JSVal
  | JSVal.nan => JSVal.nan
  | JSVal.posInf => JSVal.posInf
  | JSVal.negInf => JSVal.fin a
  | JSVal.fin b => JSVal.fin (max a b)

/-- The repulsion block of `Particle.update` (part_000 lines 102–126) under
JavaScript number semantics for the force computation, starting from finite
particle and mouse coordinates: the pair of velocity components after the
block. -/
def repelVelocitiesJS (cfg : Config) (sqrtFn : ℚ → ℚ) (mouse : Option (ℚ × ℚ))
    (isMouseDown : Bool) (p : Particle) : JSVal × JSVal :=
  match isMouseDown, mouse with
  | true, some (mx, my) =>
      let dxMouse := p.x - mx
      let dyMouse := p.y - my
      let distanceMouse := sqrtFn (dxMouse * dxMouse + dyMouse * dyMouse)
      if distanceMouse < cfg.mouseRepelRadius then
        let forceMagnitude :=
          (1 - distanceMouse / cfg.mouseRepelRadius) * cfg.mouseRepelStrength
        let maxSpeed := cfg.particleSpeed * 3
        (jsMax (-maxSpeed) (jsMin maxSpeed
            (jsAdd p.vx (jsMul (jsDiv dxMouse distanceMouse) forceMagnitude))),
         jsMax (-maxSpeed) (jsMin maxSpeed
            (jsAdd p.vy (jsMul (jsDiv dyMouse distanceMouse) forceMagnitude))))
      else (JSVal.fin p.vx, JSVal.fin p.vy)
  | _, _ => (JSVal.fin p.vx, JSVal.fin p.vy)

theorem ratSqrt_zero : ratSqrt 0 = 0 := by
  have h1 : natSqrt 0 = 0 := rfl
  have h2 : natSqrt 1 = 1 := rfl
  norm_num [ratSqrt, h1, h2]

/-- C2 (evaluation at the failing input): with the pointer pressed exactly
at the particle's position, the guard `distance < mouseRepelRadius` still
holds at distance `0`, so the code computes `0/0`: under JavaScript
semantics both velocity components become NaN — the force step is not
skipped and the velocity does not stay unchanged. -/
theorem zero_distance_force_not_skipped :
    repelVelocitiesJS defaultConfig ratSqrt (some (100, 100)) true
        { radius := 4, x := 100, y := 100, vx := 1/10, vy := 1/10, isEasterEgg := false }
      = (JSVal.nan, JSVal.nan) ∧
      repelVelocitiesJS defaultConfig ratSqrt (some (100, 100)) true
          { radius := 4, x := 100, y := 100, vx := 1/10, vy := 1/10, isEasterEgg := false }
        ≠ (JSVal.fin (1/10 : ℚ), JSVal.fin (1/10 : ℚ)) := by
  have h : repelVelocitiesJS defaultConfig ratSqrt (some (100, 100)) true
      { radius := 4, x := 100, y := 100, vx := 1/10, vy := 1/10, isEasterEgg := false }
      = (JSVal.nan, JSVal.nan) := by
    norm_num [repelVelocitiesJS, defaultConfig, ratSqrt_zero, jsDiv, jsMul, jsAdd,
      jsMin, jsMax]
  refine ⟨h, ?_⟩
  rw [h]
  simp

/-- JS negation of a possibly non-finite value. -/
def jsNeg : JSVal → JSVal
  | JSVal.nan => JSVal.nan
  | JSVal.posInf => JSVal.negInf
  | JSVal.negInf => JSVal.posInf
  | JSVal.fin a => JSVal.fin (-a)

/-- JS addition of a possibly non-finite value and a finite one. -/
def jsAddF : JSVal → ℚ → JSVal
  | JSVal.nan, _ => JSVal.nan
  | JSVal.posInf, _ => JSVal.posInf
  | JSVal.negInf, _ => JSVal.negInf
  | JSVal.fin a, b => JSVal.fin (a + b)

/-- JS subtraction of a finite value from a possibly non-finite one. -/
def jsSubF : JSVal → ℚ → JSVal
  | JSVal.nan, _ => JSVal.nan
  | JSVal.posInf, _ => JSVal.posInf
  | JSVal.negInf, _ => JSVal.negInf
  | JSVal.fin a, b => JSVal.fin (a - b)

/-- JS `<` on possibly non-finite values: every comparison involving NaN is
false.  JS `a > b` is modelled as `jsLt b a`, which agrees with JS (both are
false when NaN is involved). -/
def jsLt : JSVal → JSVal → Bool
  | JSVal.nan, _ => false
  | _, JSVal.nan => false
  | JSVal.posInf, _ => false
  | JSVal.negInf, JSVal.negInf => false
  | JSVal.negInf, _ => true
  | JSVal.fin _, JSVal.posInf => true
  | JSVal.fin _, JSVal.negInf => false
  | JSVal.fin a, JSVal.fin b => decide (a < b)

/-- A particle whose coordinates may have become non-finite. -/
structure ParticleJS where
  radius : ℚ
  x : JSVal
  y : JSVal
  vx : JSVal
  vy : JSVal
deriving DecidableEq

/-- Full one-tick `Particle.update` (part_000 lines 101–142) under
JavaScript number semantics, starting from finite state: the repulsion
block may produce NaN velocities (`repelVelocitiesJS`); movement adds them
into the position; the boundary guards use JS comparisons, which are false
whenever NaN is involved, so a NaN position is never clamped back into
range. -/
def updateJS (cfg : Config) (sqrtFn : ℚ → ℚ) (mouse : Option (ℚ × ℚ))
    (isMouseDown : Bool) (width height : ℚ) (p : Particle) : ParticleJS :=
  let v := repelVelocitiesJS cfg sqrtFn mouse isMouseDown p
  let x1 := jsAdd p.x v.1
  let y1 := jsAdd p.y v.2
  let bounceX := jsLt (JSVal.fin width) (jsAddF x1 p.radius)
    || jsLt (jsSubF x1 p.radius) (JSVal.fin 0)
  let vx1 := if bounceX then jsNeg v.1 else v.1
  let x2 := if bounceX then jsMax p.radius (jsMin (width - p.radius) x1) else x1
  let bounceY := jsLt (JSVal.fin height) (jsAddF y1 p.radius)
    || jsLt (jsSubF y1 p.radius) (JSVal.fin 0)
  let vy1 := if bounceY then jsNeg v.2 else v.2
  let y2 := if bounceY then jsMax p.radius (jsMin (height - p.radius) y1) else y1
  { radius := p.radius, x := x2, y := y2, vx := vx1, vy := vy1 }

/-- C1 (evaluation at the failing input): a particle with radius `4` at
`(100, 100)` on a `200 × 200` surface starts well inside
`[radius, surface − radius]` on both axes, but one tick with the pointer
pressed exactly at its position makes the velocity NaN (`0/0` in the
repulsion block), the NaN propagates into the position, and both boundary
guards are false on NaN so the clamp never fires: the resulting `x` is NaN
— equal to no rational at all, in particular to none within the claimed
bounds — falsifying the bounds invariant on the real JavaScript
semantics. -/
theorem nan_escapes_bounds :
    (updateJS defaultConfig ratSqrt (some (100, 100)) true 200 200
        { radius := 4, x := 100, y := 100, vx := 1/10, vy := 1/10,
          isEasterEgg := false }).x = JSVal.nan ∧
      ∀ q : ℚ, (updateJS defaultConfig ratSqrt (some (100, 100)) true 200 200
          { radius := 4, x := 100, y := 100, vx := 1/10, vy := 1/10,
            isEasterEgg := false }).x ≠ JSVal.fin q := by
  have h : (updateJS defaultConfig ratSqrt (some (100, 100)) true 200 200
      { radius := 4, x := 100, y := 100, vx := 1/10, vy := 1/10,
        isEasterEgg := false }).x = JSVal.nan := by
    norm_num [updateJS, repelVelocitiesJS, defaultConfig, ratSqrt_zero,
      jsDiv, jsMul, jsAdd, jsMin, jsMax, jsAddF, jsSubF, jsLt, jsNeg]
  refine ⟨h, ?_⟩
  intro q
  rw [h]
  simp

end ParticlesJs
